import Mathlib

/-!
Verification development for the worker-pool core of the
basic-language-model-backend repository, together with the spawn utility
(`src/utility/gold/transformer_model_utility.py`) and the endpoint wrapper
(`src/interfaces/backend_interface.py`).

The pool module `src/model/backend_control/llm_pool.py` is absent from the
source tree; only its test suite (`src/quality/model_tests/test_llm_pool.py`)
is present.  The pool data model and the operations `prepare_llm`, `start`,
`stop`, `stop_all`, `is_running`, `reset_llm` and `generate` are therefore
modelled from the specification (spec.md sections 3, 4.1, 4.2 and 5), with
registry field names taken from the keys the test suite observes
(`config`, `running`, `switch`, `input`, `output`).
-/

/-- A generation result: a successful response or the string form of an
exception raised during generation.  The worker runtime loop converts an
exception raised by `generate` into an error result that is pushed to the
output channel, so an error never terminates the loop. -/
abbrev GenResponse := Except String String

instance : DecidableEq GenResponse := fun a b =>
  match a, b with
  | .ok x, .ok y =>
    if h : x = y then .isTrue (congrArg Except.ok h)
    else .isFalse (fun hc => h (Except.ok.inj hc))
  | .ok _, .error _ => .isFalse (fun hc => Except.noConfusion hc)
  | .error _, .ok _ => .isFalse (fun hc => Except.noConfusion hc)
  | .error x, .error y =>
    if h : x = y then .isTrue (congrArg Except.error h)
    else .isFalse (fun hc => h (Except.error.inj hc))

/-- A generation capability: `generate(prompt) → response`. -/
abbrev GenCap := String → GenResponse

/-- The two execution substrates: shared-memory threads or isolated
processes.  A stored handle value records which substrate realised it
(`TEvent`/`TQueue`/`Thread` versus `MPEvent`/`multiprocessing.Queue`/`Process`). -/
inductive Substrate where
  | threaded
  | multiproc
deriving DecidableEq

/-- Modelled from the spec: a registry entry
`(id, config, running, handles: optional stopSignal/inputChannel/outputChannel/executionHandle)`.
Field names follow the registry keys observed by the test suite.  `cap` is
the generation instance owned by the running execution context; it is
created once at start from the stored configuration and released at stop. -/
structure Worker (C : Type) where
  config : C
  running : Bool
  switch : Option Substrate
  input : Option Substrate
  output : Option Substrate
  executionHandle : Option Substrate
  cap : Option GenCap

/-- Modelled from the spec: the pool owns the worker registry exclusively.
Worker ids are generated at registration from a counter that is never
decreased, so ids are process-unique and never reused. -/
structure LLMPool (C : Type) where
  workers : List (Nat × Worker C)
  nextUuid : Nat

/-- The error taxonomy of the pool contract. -/
inductive PoolError where
  | UnknownWorker
  | NotRunning
  | SpawnFailure
deriving DecidableEq

/-- An externally observable result of one pool operation. -/
inductive PoolOut where
  | uuid (id : Nat)
  | ok
  | flag (b : Bool)
  | response (r : GenResponse)
  | err (e : PoolError)
deriving DecidableEq

/-- The empty pool. -/
def LLMPool.initial (C : Type) : LLMPool C :=
  { workers := [], nextUuid := 0 }

/-- Modelled from the spec: `register(config) → WorkerId` (source name
`prepare_llm`) allocates a new worker entry with `running = false`, no
handles and no execution context, and returns the fresh id. -/
def LLMPool.prepare_llm {C : Type} (p : LLMPool C) (config : C) : Nat × LLMPool C :=
  (p.nextUuid,
   { workers := p.workers ++
      [(p.nextUuid,
        { config := config, running := false, switch := none, input := none,
          output := none, executionHandle := none, cap := none })],
     nextUuid := p.nextUuid + 1 })

/-- Replace the registry entry for `id` by the given worker. -/
def LLMPool.updateWorker {C : Type} (p : LLMPool C) (id : Nat) (w : Worker C) : LLMPool C :=
  { p with workers := p.workers.map (fun e => if e.1 = id then (id, w) else e) }

/-- Modelled from the spec: `start(id)` fails with `UnknownWorker` if `id` is
absent and is a no-op on an already running worker.  Otherwise it invokes the
spawn capability on the stored configuration; a spawn failure surfaces as
`SpawnFailure` with the worker left registered but not running.  On success it
opens the stop signal and the two channels on the given substrate, launches
the execution context owning the generation instance, and sets
`running := true`. -/
def LLMPool.start {C : Type} (spawner : C → Option GenCap) (sub : Substrate)
    (p : LLMPool C) (id : Nat) : PoolOut × LLMPool C :=
  match p.workers.lookup id with
  | none => (.err .UnknownWorker, p)
  | some w =>
    if w.running then (.ok, p)
    else
      match spawner w.config with
      | none => (.err .SpawnFailure, p)
      | some cap =>
        (.ok, p.updateWorker id
          { w with running := true, switch := some sub, input := some sub,
                   output := some sub, executionHandle := some sub, cap := some cap })

/-- Modelled from the spec: `stop(id)` fails with `UnknownWorker` if absent
and is a no-op on a stopped worker; otherwise it raises the stop signal,
joins the execution context, closes the channels and sets `running := false`,
leaving no live handles. -/
def LLMPool.stop {C : Type} (p : LLMPool C) (id : Nat) : PoolOut × LLMPool C :=
  match p.workers.lookup id with
  | none => (.err .UnknownWorker, p)
  | some w =>
    if w.running then
      (.ok, p.updateWorker id
        { w with running := false, switch := none, input := none,
                 output := none, executionHandle := none, cap := none })
    else (.ok, p)

/-- The effect of `stop_all` on a single registry entry: a running worker is
brought down exactly as by `stop`; a stopped worker is untouched. -/
def Worker.stopped {C : Type} (w : Worker C) : Worker C :=
  if w.running then
    { w with running := false, switch := none, input := none,
             output := none, executionHandle := none, cap := none }
  else w

/-- Modelled from the spec: `stopAll()` stops every currently running worker
and is safe (no error) when zero workers are running. -/
def LLMPool.stop_all {C : Type} (p : LLMPool C) : PoolOut × LLMPool C :=
  (.ok, { p with workers := p.workers.map (fun e => (e.1, e.2.stopped)) })

/-- Modelled from the spec: `isRunning(id)` fails with `UnknownWorker` if
absent and otherwise returns the `running` flag. -/
def LLMPool.is_running {C : Type} (p : LLMPool C) (id : Nat) : PoolOut × LLMPool C :=
  match p.workers.lookup id with
  | none => (.err .UnknownWorker, p)
  | some w => (.flag w.running, p)

/-- Modelled from the spec: `reconfigure(id, newConfig)` (source name
`reset_llm`) fails with `UnknownWorker` if absent and otherwise replaces the
stored configuration unconditionally, independent of `running`; the handles,
the running flag and the generation instance of an already started execution
context are untouched. -/
def LLMPool.reset_llm {C : Type} (p : LLMPool C) (id : Nat) (config : C) : PoolOut × LLMPool C :=
  match p.workers.lookup id with
  | none => (.err .UnknownWorker, p)
  | some w => (.ok, p.updateWorker id { w with config := config })

/-- Modelled from the spec: `generate(id, prompt)` fails with `UnknownWorker`
if absent and with `NotRunning` if `running = false`, in both cases without
side effects.  Otherwise the prompt is enqueued on the input channel and the
caller blocks until the corresponding (success or error) result appears on
the output channel; the synchronous round trip is modelled by applying the
worker's generation capability. -/
def LLMPool.generate {C : Type} (p : LLMPool C) (id : Nat) (prompt : String) : PoolOut × LLMPool C :=
  match p.workers.lookup id with
  | none => (.err .UnknownWorker, p)
  | some w =>
    if w.running then
      match w.cap with
      | some cap => (.response (cap prompt), p)
      | none => (.response (.error "no generation instance"), p)
    else (.err .NotRunning, p)

/-- One external pool operation (spec section 4.1). -/
inductive PoolOp (C : Type) where
  | prepare (config : C)
  | start (id : Nat)
  | stop (id : Nat)
  | stopAll
  | isRunning (id : Nat)
  | reset (id : Nat) (config : C)
  | gen (id : Nat) (prompt : String)

/-- Dispatch one operation against the pool. -/
def LLMPool.step {C : Type} (spawner : C → Option GenCap) (sub : Substrate)
    (p : LLMPool C) : PoolOp C → PoolOut × LLMPool C
  | .prepare config =>
    let r := p.prepare_llm config
    (.uuid r.1, r.2)
  | .start id => LLMPool.start spawner sub p id
  | .stop id => p.stop id
  | .stopAll => p.stop_all
  | .isRunning id => p.is_running id
  | .reset id config => p.reset_llm id config
  | .gen id prompt => p.generate id prompt

/-- Run a sequence of operations, collecting the observable outputs. -/
def LLMPool.run {C : Type} (spawner : C → Option GenCap) (sub : Substrate)
    (p : LLMPool C) : List (PoolOp C) → List PoolOut × LLMPool C
  | [] => ([], p)
  | op :: ops =>
    let r := LLMPool.step spawner sub p op
    let rest := LLMPool.run spawner sub r.2 ops
    (r.1 :: rest.1, rest.2)

/-- Modelled from the spec: the thread-isolated pool variant realises the
stop signal, the channels and the execution context with in-process
primitives (`TEvent`, `TQueue`, threads). -/
def ThreadedLLMPool.run {C : Type} (spawner : C → Option GenCap)
    (p : LLMPool C) (ops : List (PoolOp C)) : List PoolOut × LLMPool C :=
  LLMPool.run spawner Substrate.threaded p ops

/-- Modelled from the spec: the process-isolated pool variant (source class
name `MulitprocessingLLMPool`) realises the stop signal, the channels and the
execution context with cross-process primitives (`MPEvent`,
`multiprocessing.Queue`, processes). -/
def MulitprocessingLLMPool.run {C : Type} (spawner : C → Option GenCap)
    (p : LLMPool C) (ops : List (PoolOp C)) : List PoolOut × LLMPool C :=
  LLMPool.run spawner Substrate.multiproc p ops

/-- The substrate-independent part of a registry entry: the configuration,
the running flag, the generation instance, and for each handle only whether
it is live.  Two pool states with the same core are externally
indistinguishable. -/
def Worker.core {C : Type} (w : Worker C) :
    C × Bool × Option GenCap × Bool × Bool × Bool × Bool :=
  (w.config, w.running, w.cap, w.switch.isSome, w.input.isSome,
   w.output.isSome, w.executionHandle.isSome)

/-- The substrate-independent part of a pool state. -/
def LLMPool.core {C : Type} (p : LLMPool C) :
    Nat × List (Nat × (C × Bool × Option GenCap × Bool × Bool × Bool × Bool)) :=
  (p.nextUuid, p.workers.map (fun e => (e.1, e.2.core)))

/-- Registering a list of configurations one after the other, collecting the
returned worker ids. -/
def LLMPool.prepareMany {C : Type} (p : LLMPool C) : List C → List Nat × LLMPool C
  | [] => ([], p)
  | c :: cs =>
    let r := p.prepare_llm c
    let rest := r.2.prepareMany cs
    (r.1 :: rest.1, rest.2)

/-- Registry well-formedness: every registered id is below the id counter and
the registered ids are pairwise distinct. -/
def LLMPool.wf {C : Type} (p : LLMPool C) : Prop :=
  (∀ e ∈ p.workers, e.1 < p.nextUuid) ∧ (p.workers.map Prod.fst).Nodup

/-- A test configuration is a prompt-to-response dictionary, as in
`test_llm_pool.py` (`test_config_a` etc.). -/
abbrev TestConfig := List (String × String)

/-- The dictionary `test_config_a` of `test_llm_pool.py`. -/
def test_config_a : TestConfig :=
  [("prompt_a", "response_a"), ("prompt_b", "response_b")]

/-- The dictionary `test_config_b` of `test_llm_pool.py`. -/
def test_config_b : TestConfig :=
  [("prompt_c", "response_c"), ("prompt_d", "response_d")]

/-- The new mapping passed to `reset_llm` in `test_03_multi_llm_handling`. -/
def test_config_new : TestConfig :=
  [("new_prompt_c", "new_response_c"), ("new_prompt_d", "new_response_d")]

/-- Modelled from the spec: the deterministic test stand-in spawn capability
of section 4.3 and section 8 — the configuration is a prompt-to-response
mapping and the produced generation capability resolves each prompt against
that mapping (a missing prompt raises a key error, converted by the runtime
loop into an error result). -/
def mappingSpawner : TestConfig → Option GenCap :=
  fun m => some (fun prompt =>
    match m.lookup prompt with
    | some r => .ok r
    | none => .error "KeyError")

/-- Faithful model of `test_spawner` in `test_llm_pool.py`: it wraps the
configuration dictionary in a `TestLM` whose `generate` executes
`self.representation([prompt])`.  `representation` is the dictionary itself
and a Python dict is not callable, so the call raises `TypeError` instead of
looking the prompt up; the runtime loop converts the raised exception into an
error result. -/
def test_spawner : TestConfig → Option GenCap :=
  fun _config => some (fun _prompt => .error "TypeError: dict object is not callable")

/-- The registry entry created by `prepare_llm` for `test_config_a`, before
any start. -/
def sampleWorker : Worker TestConfig :=
  { config := test_config_a, running := false, switch := none, input := none,
    output := none, executionHandle := none, cap := none }

/-- The loader classes registered in `SUPPORTED_TYPES` of
`transformer_model_utility.py`. -/
inductive LoaderClass where
  | LlamaCppLM
  | LocalHFLM
  | LocalHFEmbeddingLM
deriving DecidableEq

/-- One entry of `SUPPORTED_TYPES`: a dict with a `loaders` dict (string key
to loader class or `None`) and a `gateways` dict (empty for every backend). -/
structure TypeEntry where
  loaders : List (String × Option LoaderClass)
  gateways : List (String × Option LoaderClass)
deriving DecidableEq

/-- `SUPPORTED_TYPES` of `transformer_model_utility.py`, entry for entry. -/
def SUPPORTED_TYPES : List (String × TypeEntry) :=
  [("llamacpp", { loaders := [("_default", some .LlamaCppLM)], gateways := [] }),
   ("openai", { loaders := [("_default", none)], gateways := [] }),
   ("gpt4all", { loaders := [("_default", none)], gateways := [] }),
   ("bedrock", { loaders := [("_default", none)], gateways := [] }),
   ("cohere", { loaders := [("_default", none)], gateways := [] }),
   ("google_palm", { loaders := [("_default", none)], gateways := [] }),
   ("huggingface",
    { loaders := [("_default", some .LocalHFLM), ("embedding", some .LocalHFEmbeddingLM)],
      gateways := [] }),
   ("koboldai", { loaders := [("_default", none)], gateways := [] }),
   ("mosaicml", { loaders := [("_default", none)], gateways := [] }),
   ("replicate", { loaders := [("_default", none)], gateways := [] }),
   ("anthropic", { loaders := [("_default", none)], gateways := [] }),
   ("openllm", { loaders := [("_default", none)], gateways := [] }),
   ("openlm", { loaders := [("_default", none)], gateways := [] }),
   ("rwkv", { loaders := [("_default", none)], gateways := [] })]

/-- A configuration dictionary as read by `spawn_language_model_instance`:
only the `type` and `loader` keys are inspected (`config.get` returns `None`
for an absent key, modelled by `Option`). -/
structure LMConfig where
  type : Option String
  loader : Option String
deriving DecidableEq

/-- The result of `lm(config)`: an instance of the selected loader class
constructed from the configuration. -/
structure LMInstance where
  cls : LoaderClass
  config : LMConfig
deriving DecidableEq

/-- `d.get(key, default)` for a string-keyed dict when the queried key is
itself the result of a `.get` and may be `None`; a `None` key matches no
string key of the dict. -/
def dictGet {α : Type} (d : List (String × α)) (key : Option String) (dflt : α) : α :=
  match key with
  | none => dflt
  | some k => (d.lookup k).getD dflt

/-- `spawn_language_model_instance` of `transformer_model_utility.py`:
`SUPPORTED_TYPES.get(config.get("type"), default).get("loaders", default).get(config.get("loader", "_default"))`,
then `if lm is not None: lm = lm(config)`; the final `.get` with no default
yields `None` for an absent key, and the stored value may itself be `None`. -/
def spawn_language_model_instance (config : LMConfig) : Option LMInstance :=
  let entry := dictGet SUPPORTED_TYPES config.type { loaders := [], gateways := [] }
  let lm : Option LoaderClass :=
    (entry.loaders.lookup (config.loader.getD "_default")).getD none
  lm.map (fun c => { cls := c, config := config })

/-- A Python value as handled by the endpoint wrapper: endpoint coroutines
return dicts; other shapes matter only in that they reject item
assignment. -/
inductive PyVal where
  | vBool (b : Bool)
  | vStr (s : String)
  | vNone
  | vDict (entries : List (String × PyVal))

/-- A raised Python exception, reduced to `str(ex)` and
`traceback.format_exc()`. -/
structure PyExn where
  msg : String
  trace : String
deriving DecidableEq

/-- Dict item assignment `d[k] = v`: replace the value of an existing key in
place, otherwise append the new key. -/
def setKey : List (String × PyVal) → String → PyVal → List (String × PyVal)
  | [], k, v => [(k, v)]
  | (k0, v0) :: es, k, v =>
    if k0 = k then (k0, v) :: es else (k0, v0) :: setKey es k v

/-- Item assignment `response["success"] = True`: only a dict supports item
assignment; on any other value the statement raises `TypeError`, which the
wrapper's `except` block catches. -/
def setItem (v : PyVal) (key : String) (val : PyVal) : Except PyExn PyVal :=
  match v with
  | .vDict es => .ok (.vDict (setKey es key val))
  | _ => .error { msg := "TypeError: object does not support item assignment",
                  trace := "Traceback: TypeError" }

/-- The dict built in the wrapper's `except` block. -/
def failureDict (ex : PyExn) : PyVal :=
  .vDict [("success", .vBool false), ("exception", .vStr ex.msg),
          ("trace", .vStr ex.trace)]

/-- `str()` of a value as used when building the response part of the log
entry; the exact text of a nested dict repr is irrelevant to the logged
shape and is abbreviated. -/
def strOfVal : PyVal → String
  | .vBool true => "True"
  | .vBool false => "False"
  | .vStr s => s
  | .vNone => "None"
  | .vDict _ => "dict"

/-- One entry of the interaction log written by `CONTROLLER.add_log_entry`:
the request data and the stringified response
(`\x7bkey: str(response[key]) for key in response\x7d`); the two wall-clock
timestamps are not modelled. -/
structure LogEntry where
  funcName : String
  argsRepr : String
  kwargsRepr : String
  responseRepr : List (String × String)

/-- The response part of the log entry.  At logging time the response is
always a dict (both branches of the wrapper produce one), so the non-dict
arm is unreachable. -/
def responseRepr : PyVal → List (String × String)
  | .vDict es => es.map (fun e => (e.1, strOfVal e.2))
  | _ => []

/-- The `inner` coroutine produced by the `interface_function` decorator of
`backend_interface.py`: `await` the wrapped endpoint coroutine and set
`response["success"] = True`; if either step raises, build the failure dict
with the exception string and traceback instead; in both cases append a log
entry for the interaction and return the response.  The wrapped call's
outcome (normal return or raised exception) is the `funcResult` argument. -/
def interface_function_inner (funcName argsRepr kwargsRepr : String)
    (funcResult : Except PyExn PyVal) (log : List LogEntry) : PyVal × List LogEntry :=
  let response : PyVal :=
    match funcResult with
    | .ok r =>
      match setItem r "success" (.vBool true) with
      | .ok r2 => r2
      | .error ex => failureDict ex
    | .error ex => failureDict ex
  (response,
   log ++ [{ funcName := funcName, argsRepr := argsRepr, kwargsRepr := kwargsRepr,
             responseRepr := responseRepr response }])

/-- The registry invariant behind claim C7: every entry's four handles are
live exactly when its running flag is set. -/
def LLMPool.handleInv {C : Type} (p : LLMPool C) : Prop :=
  ∀ e ∈ p.workers,
    e.2.switch.isSome = e.2.running ∧ e.2.input.isSome = e.2.running ∧
    e.2.output.isSome = e.2.running ∧ e.2.executionHandle.isSome = e.2.running

/-!
Helper lemmas about association-list registries.
-/

theorem lookup_mem {α β : Type} [BEq α] [LawfulBEq α] {l : List (α × β)} {id : α} {w : β}
    (h : l.lookup id = some w) : (id, w) ∈ l := by
  induction l with
  | nil => simp [List.lookup] at h
  | cons e es ih =>
    obtain ⟨k, b⟩ := e
    cases hab : id == k with
    | true =>
      have hk : id = k := eq_of_beq hab
      subst hk
      simp [List.lookup] at h
      subst h
      exact List.mem_cons_self _ _
    | false =>
      simp only [List.lookup, hab] at h
      exact List.mem_cons_of_mem _ (ih h)

theorem lookup_append_fresh {β : Type} {l : List (Nat × β)} {n : Nat} (w : β)
    (h : ∀ e ∈ l, e.1 ≠ n) : (l ++ [(n, w)]).lookup n = some w := by
  induction l with
  | nil => simp [List.lookup]
  | cons e es ih =>
    obtain ⟨k, b⟩ := e
    have hk : k ≠ n := h (k, b) (List.mem_cons_self _ _)
    have hb : (n == k) = false := beq_eq_false_iff_ne.mpr (Ne.symm hk)
    simp only [List.cons_append, List.lookup, hb]
    exact ih (fun e he => h e (List.mem_cons_of_mem _ he))

theorem lookup_update {β : Type} (l : List (Nat × β)) (id : Nat) (v : β) :
    (l.map (fun e => if e.1 = id then (id, v) else e)).lookup id
      = (l.lookup id).map (fun _ => v) := by
  induction l with
  | nil => simp [List.lookup]
  | cons e es ih =>
    obtain ⟨k, b⟩ := e
    simp only [List.map_cons]
    by_cases hk : k = id
    · subst hk
      rw [show (if (k, b).1 = k then (k, v) else (k, b)) = (k, v) from if_pos rfl]
      simp [List.lookup, ih]
    · rw [show (if (k, b).1 = id then (id, v) else (k, b)) = (k, b) from if_neg hk]
      have hb : (id == k) = false := beq_eq_false_iff_ne.mpr (Ne.symm hk)
      simp [List.lookup, hb, ih]

theorem lookup_map_snd {β γ : Type} (g : β → γ) (l : List (Nat × β)) (j : Nat) :
    (l.map (fun e => (e.1, g e.2))).lookup j = (l.lookup j).map g := by
  induction l with
  | nil => simp [List.lookup]
  | cons e es ih =>
    obtain ⟨k, b⟩ := e
    by_cases hk : j = k
    · subst hk
      simp [List.lookup, ih]
    · have hb : (j == k) = false := beq_eq_false_iff_ne.mpr hk
      simp [List.lookup, hb, ih]

theorem keys_update {β : Type} (l : List (Nat × β)) (id : Nat) (v : β) :
    (l.map (fun e => if e.1 = id then (id, v) else e)).map Prod.fst
      = l.map Prod.fst := by
  induction l with
  | nil => rfl
  | cons e es ih =>
    by_cases hk : e.1 = id
    · simp [hk, ih]
    · simp [hk, ih]

theorem keys_map_snd {β γ : Type} (g : β → γ) (l : List (Nat × β)) :
    (l.map (fun e => (e.1, g e.2))).map Prod.fst = l.map Prod.fst := by
  induction l with
  | nil => rfl
  | cons e es ih => simp [ih]

/-!
Simulation between the two pool variants: the substrate tag stored in the
handles never influences lookups, updates or outputs.
-/

theorem lookup_core_eq {C : Type} {l1 l2 : List (Nat × Worker C)}
    (h : l1.map (fun e => (e.1, e.2.core)) = l2.map (fun e => (e.1, e.2.core)))
    (id : Nat) :
    Option.map Worker.core (l1.lookup id) = Option.map Worker.core (l2.lookup id) := by
  induction l1 generalizing l2 with
  | nil =>
    cases l2 with
    | nil => rfl
    | cons f fs => simp at h
  | cons e es ih =>
    cases l2 with
    | nil => simp at h
    | cons f fs =>
      obtain ⟨k1, w1⟩ := e
      obtain ⟨k2, w2⟩ := f
      simp only [List.map_cons, List.cons.injEq, Prod.mk.injEq] at h
      obtain ⟨⟨hk, hw⟩, htail⟩ := h
      subst hk
      by_cases hid : id = k1
      · subst hid
        simp [List.lookup, hw]
      · have hb : (id == k1) = false := beq_eq_false_iff_ne.mpr hid
        simp only [List.lookup, hb]
        exact ih htail

theorem map_core_congr {C : Type} {l1 l2 : List (Nat × Worker C)}
    (h : l1.map (fun e => (e.1, e.2.core)) = l2.map (fun e => (e.1, e.2.core)))
    (g1 g2 : (Nat × Worker C) → (Nat × Worker C))
    (hg : ∀ e1 e2, (e1.1, e1.2.core) = (e2.1, e2.2.core) →
          ((g1 e1).1, (g1 e1).2.core) = ((g2 e2).1, (g2 e2).2.core)) :
    (l1.map g1).map (fun e => (e.1, e.2.core))
      = (l2.map g2).map (fun e => (e.1, e.2.core)) := by
  induction l1 generalizing l2 with
  | nil =>
    cases l2 with
    | nil => rfl
    | cons f fs => simp at h
  | cons e es ih =>
    cases l2 with
    | nil => simp at h
    | cons f fs =>
      simp only [List.map_cons, List.cons.injEq] at h ⊢
      exact ⟨hg e f h.1, ih h.2⟩

theorem stopped_core_eq {C : Type} {w1 w2 : Worker C} (h : w1.core = w2.core) :
    w1.stopped.core = w2.stopped.core := by
  have h0 := h
  simp only [Worker.core, Prod.mk.injEq] at h
  obtain ⟨hcfg, hrun, hcap, _, _, _, _⟩ := h
  simp only [Worker.stopped]
  rw [hrun]
  by_cases hr : w2.running
  · simp [hr, Worker.core, hcfg]
  · simp only [hr, if_neg]
    simpa using h0

theorem step_core {C : Type} (s : C → Option GenCap) (a b : Substrate)
    {p q : LLMPool C} (h : p.core = q.core) (op : PoolOp C) :
    (LLMPool.step s a p op).1 = (LLMPool.step s b q op).1 ∧
    (LLMPool.step s a p op).2.core = (LLMPool.step s b q op).2.core := by
  have hn : p.nextUuid = q.nextUuid := congrArg Prod.fst h
  have hw : p.workers.map (fun e => (e.1, e.2.core))
      = q.workers.map (fun e => (e.1, e.2.core)) := congrArg Prod.snd h
  cases op with
  | prepare config =>
    constructor
    · simp [LLMPool.step, LLMPool.prepare_llm, hn]
    · simp only [LLMPool.step, LLMPool.prepare_llm, LLMPool.core, List.map_append,
        Prod.mk.injEq]
      exact ⟨by rw [hn], by rw [hw, hn]⟩
  | start id =>
    have hl := lookup_core_eq hw id
    simp only [LLMPool.step, LLMPool.start]
    cases hpl : p.workers.lookup id with
    | none =>
      cases hql : q.workers.lookup id with
      | none => exact ⟨by trivial, h⟩
      | some w2 => rw [hpl, hql] at hl; simp at hl
    | some w1 =>
      cases hql : q.workers.lookup id with
      | none => rw [hpl, hql] at hl; simp at hl
      | some w2 =>
        rw [hpl, hql] at hl
        simp only [Option.map] at hl
        have hl2 := Option.some.inj hl
        simp only [Worker.core, Prod.mk.injEq] at hl2
        obtain ⟨hcfg, hrun, hcap, hsw, hin, hout, hex⟩ := hl2
        dsimp only
        rw [hrun, hcfg]
        by_cases hr : w2.running = true
        · simp only [if_pos hr]
          exact ⟨by trivial, h⟩
        · simp only [if_neg hr]
          cases hs : s w2.config with
          | none => exact ⟨by trivial, h⟩
          | some cap =>
            dsimp only
            refine ⟨rfl, ?_⟩
            simp only [LLMPool.core, LLMPool.updateWorker, Prod.mk.injEq]
            refine ⟨hn, ?_⟩
            refine map_core_congr hw _ _ ?_
            intro e1 e2 he
            have he2 := he
            simp only [Prod.mk.injEq] at he2
            obtain ⟨hek, _⟩ := he2
            by_cases hi : e1.1 = id
            · rw [if_pos hi, if_pos (hek ▸ hi)]
              simp [Worker.core, hcfg]
            · rw [if_neg hi, if_neg (hek ▸ hi)]
              exact he
  | stop id =>
    have hl := lookup_core_eq hw id
    simp only [LLMPool.step, LLMPool.stop]
    cases hpl : p.workers.lookup id with
    | none =>
      cases hql : q.workers.lookup id with
      | none => exact ⟨by trivial, h⟩
      | some w2 => rw [hpl, hql] at hl; simp at hl
    | some w1 =>
      cases hql : q.workers.lookup id with
      | none => rw [hpl, hql] at hl; simp at hl
      | some w2 =>
        rw [hpl, hql] at hl
        simp only [Option.map] at hl
        have hl2 := Option.some.inj hl
        simp only [Worker.core, Prod.mk.injEq] at hl2
        obtain ⟨hcfg, hrun, hcap, hsw, hin, hout, hex⟩ := hl2
        dsimp only
        rw [hrun]
        by_cases hr : w2.running = true
        · simp only [if_pos hr]
          refine ⟨by trivial, ?_⟩
          simp only [LLMPool.core, LLMPool.updateWorker, Prod.mk.injEq]
          refine ⟨hn, ?_⟩
          refine map_core_congr hw _ _ ?_
          intro e1 e2 he
          have he2 := he
          simp only [Prod.mk.injEq] at he2
          obtain ⟨hek, _⟩ := he2
          by_cases hi : e1.1 = id
          · rw [if_pos hi, if_pos (hek ▸ hi)]
            simp [Worker.core, hcfg]
          · rw [if_neg hi, if_neg (hek ▸ hi)]
            exact he
        · simp only [if_neg hr]
          exact ⟨by trivial, h⟩
  | stopAll =>
    refine ⟨rfl, ?_⟩
    simp only [LLMPool.step, LLMPool.stop_all, LLMPool.core, Prod.mk.injEq]
    refine ⟨hn, ?_⟩
    refine map_core_congr hw _ _ ?_
    intro e1 e2 he
    simp only [Prod.mk.injEq] at he ⊢
    exact ⟨he.1, stopped_core_eq he.2⟩
  | isRunning id =>
    have hl := lookup_core_eq hw id
    simp only [LLMPool.step, LLMPool.is_running]
    cases hpl : p.workers.lookup id with
    | none =>
      cases hql : q.workers.lookup id with
      | none => exact ⟨by trivial, h⟩
      | some w2 => rw [hpl, hql] at hl; simp at hl
    | some w1 =>
      cases hql : q.workers.lookup id with
      | none => rw [hpl, hql] at hl; simp at hl
      | some w2 =>
        rw [hpl, hql] at hl
        simp only [Option.map] at hl
        have hl2 := Option.some.inj hl
        simp only [Worker.core, Prod.mk.injEq] at hl2
        exact ⟨congrArg PoolOut.flag hl2.2.1, h⟩
  | reset id config =>
    have hl := lookup_core_eq hw id
    simp only [LLMPool.step, LLMPool.reset_llm]
    cases hpl : p.workers.lookup id with
    | none =>
      cases hql : q.workers.lookup id with
      | none => exact ⟨by trivial, h⟩
      | some w2 => rw [hpl, hql] at hl; simp at hl
    | some w1 =>
      cases hql : q.workers.lookup id with
      | none => rw [hpl, hql] at hl; simp at hl
      | some w2 =>
        rw [hpl, hql] at hl
        simp only [Option.map] at hl
        have hl2 := Option.some.inj hl
        simp only [Worker.core, Prod.mk.injEq] at hl2
        obtain ⟨hcfg, hrun, hcap, hsw, hin, hout, hex⟩ := hl2
        refine ⟨rfl, ?_⟩
        simp only [LLMPool.core, LLMPool.updateWorker, Prod.mk.injEq]
        refine ⟨hn, ?_⟩
        refine map_core_congr hw _ _ ?_
        intro e1 e2 he
        have he2 := he
        simp only [Prod.mk.injEq] at he2
        obtain ⟨hek, _⟩ := he2
        by_cases hi : e1.1 = id
        · rw [if_pos hi, if_pos (hek ▸ hi)]
          simp [Worker.core, hrun, hcap, hsw, hin, hout, hex]
        · rw [if_neg hi, if_neg (hek ▸ hi)]
          exact he
  | gen id prompt =>
    have hl := lookup_core_eq hw id
    simp only [LLMPool.step, LLMPool.generate]
    cases hpl : p.workers.lookup id with
    | none =>
      cases hql : q.workers.lookup id with
      | none => exact ⟨by trivial, h⟩
      | some w2 => rw [hpl, hql] at hl; simp at hl
    | some w1 =>
      cases hql : q.workers.lookup id with
      | none => rw [hpl, hql] at hl; simp at hl
      | some w2 =>
        rw [hpl, hql] at hl
        simp only [Option.map] at hl
        have hl2 := Option.some.inj hl
        simp only [Worker.core, Prod.mk.injEq] at hl2
        obtain ⟨hcfg, hrun, hcap, hsw, hin, hout, hex⟩ := hl2
        dsimp only
        rw [hrun, hcap]
        by_cases hr : w2.running = true
        · simp only [if_pos hr]
          cases w2.cap with
          | none => exact ⟨by trivial, h⟩
          | some cap => exact ⟨by trivial, h⟩
        · simp only [if_neg hr]
          exact ⟨by trivial, h⟩

theorem run_core {C : Type} (s : C → Option GenCap) (a b : Substrate)
    {p q : LLMPool C} (h : p.core = q.core) (ops : List (PoolOp C)) :
    (LLMPool.run s a p ops).1 = (LLMPool.run s b q ops).1 ∧
    (LLMPool.run s a p ops).2.core = (LLMPool.run s b q ops).2.core := by
  induction ops generalizing p q with
  | nil => exact ⟨by trivial, h⟩
  | cons op ops ih =>
    have hstep := step_core s a b h op
    have hrest := ih hstep.2
    simp only [LLMPool.run]
    exact ⟨by rw [hstep.1, hrest.1], hrest.2⟩

/-!
Preservation of registry well-formedness and of the handle invariant.
-/

theorem wf_updateWorker {C : Type} {p : LLMPool C} (h : p.wf) (id : Nat) (w : Worker C) :
    (p.updateWorker id w).wf := by
  obtain ⟨hb, hd⟩ := h
  constructor
  · intro e he
    simp only [LLMPool.updateWorker, List.mem_map] at he
    obtain ⟨e0, he0, hee⟩ := he
    have hkey : e.1 = e0.1 := by
      by_cases hi : e0.1 = id
      · rw [if_pos hi] at hee
        rw [← hee]
        exact hi.symm
      · rw [if_neg hi] at hee
        rw [← hee]
    simp only [LLMPool.updateWorker]
    rw [hkey]
    exact hb e0 he0
  · simp only [LLMPool.updateWorker]
    rw [keys_update]
    exact hd

theorem wf_prepare {C : Type} {p : LLMPool C} (h : p.wf) (config : C) :
    (p.prepare_llm config).2.wf := by
  obtain ⟨hb, hd⟩ := h
  constructor
  · intro e he
    simp only [LLMPool.prepare_llm, List.mem_append, List.mem_singleton] at he
    cases he with
    | inl he => exact Nat.lt_succ_of_lt (hb e he)
    | inr he =>
      rw [he]
      exact Nat.lt_succ_self _
  · simp only [LLMPool.prepare_llm, List.map_append, List.map_cons, List.map_nil]
    rw [List.nodup_append]
    refine ⟨hd, List.nodup_singleton _, ?_⟩
    intro a ha hmem
    simp only [List.mem_singleton] at hmem
    obtain ⟨e, he, hae⟩ := List.mem_map.mp ha
    have := hb e he
    rw [hae, hmem] at this
    exact Nat.lt_irrefl _ this

theorem wf_stop_all {C : Type} {p : LLMPool C} (h : p.wf) : (p.stop_all).2.wf := by
  obtain ⟨hb, hd⟩ := h
  constructor
  · intro e he
    simp only [LLMPool.stop_all, List.mem_map] at he
    obtain ⟨e0, he0, hee⟩ := he
    simp only [LLMPool.stop_all]
    rw [← hee]
    exact hb e0 he0
  · simp only [LLMPool.stop_all]
    rw [keys_map_snd]
    exact hd

theorem step_wf {C : Type} (s : C → Option GenCap) (sub : Substrate)
    {p : LLMPool C} (h : p.wf) (op : PoolOp C) : (LLMPool.step s sub p op).2.wf := by
  cases op with
  | prepare config => exact wf_prepare h config
  | start id =>
    simp only [LLMPool.step, LLMPool.start]
    cases hpl : p.workers.lookup id with
    | none => exact h
    | some w =>
      dsimp only
      by_cases hr : w.running = true
      · simp only [if_pos hr]
        exact h
      · simp only [if_neg hr]
        cases hs : s w.config with
        | none => exact h
        | some cap => exact wf_updateWorker h id _
  | stop id =>
    simp only [LLMPool.step, LLMPool.stop]
    cases hpl : p.workers.lookup id with
    | none => exact h
    | some w =>
      dsimp only
      by_cases hr : w.running = true
      · simp only [if_pos hr]
        exact wf_updateWorker h id _
      · simp only [if_neg hr]
        exact h
  | stopAll => exact wf_stop_all h
  | isRunning id =>
    simp only [LLMPool.step, LLMPool.is_running]
    cases hpl : p.workers.lookup id with
    | none => exact h
    | some w => exact h
  | reset id config =>
    simp only [LLMPool.step, LLMPool.reset_llm]
    cases hpl : p.workers.lookup id with
    | none => exact h
    | some w => exact wf_updateWorker h id _
  | gen id prompt =>
    simp only [LLMPool.step, LLMPool.generate]
    cases hpl : p.workers.lookup id with
    | none => exact h
    | some w =>
      dsimp only
      by_cases hr : w.running = true
      · simp only [if_pos hr]
        cases w.cap with
        | none => exact h
        | some cap => exact h
      · simp only [if_neg hr]
        exact h

theorem initial_wf (C : Type) : (LLMPool.initial C).wf := by
  constructor
  · intro e he
    simp [LLMPool.initial] at he
  · simp [LLMPool.initial]

theorem run_wf {C : Type} (s : C → Option GenCap) (sub : Substrate)
    {p : LLMPool C} (h : p.wf) (ops : List (PoolOp C)) :
    (LLMPool.run s sub p ops).2.wf := by
  induction ops generalizing p with
  | nil => exact h
  | cons op ops ih =>
    simp only [LLMPool.run]
    exact ih (step_wf s sub h op)

theorem handleInv_updateWorker {C : Type} {p : LLMPool C} (h : p.handleInv) (id : Nat)
    {w : Worker C}
    (hw : w.switch.isSome = w.running ∧ w.input.isSome = w.running ∧
          w.output.isSome = w.running ∧ w.executionHandle.isSome = w.running) :
    (p.updateWorker id w).handleInv := by
  intro e he
  simp only [LLMPool.updateWorker, List.mem_map] at he
  obtain ⟨e0, he0, hee⟩ := he
  by_cases hi : e0.1 = id
  · rw [if_pos hi] at hee
    rw [← hee]
    exact hw
  · rw [if_neg hi] at hee
    rw [← hee]
    exact h e0 he0

theorem handleInv_prepare {C : Type} {p : LLMPool C} (h : p.handleInv) (config : C) :
    (p.prepare_llm config).2.handleInv := by
  intro e he
  simp only [LLMPool.prepare_llm, List.mem_append, List.mem_singleton] at he
  cases he with
  | inl he => exact h e he
  | inr he =>
    rw [he]
    exact ⟨rfl, rfl, rfl, rfl⟩

theorem handleInv_stop_all {C : Type} {p : LLMPool C} (h : p.handleInv) :
    (p.stop_all).2.handleInv := by
  intro e he
  simp only [LLMPool.stop_all, List.mem_map] at he
  obtain ⟨e0, he0, hee⟩ := he
  rw [← hee]
  have h0 := h e0 he0
  by_cases hr : e0.2.running = true
  · simp [Worker.stopped, hr]
  · simp only [Worker.stopped, if_neg hr]
    exact h0

theorem step_handleInv {C : Type} (s : C → Option GenCap) (sub : Substrate)
    {p : LLMPool C} (h : p.handleInv) (op : PoolOp C) :
    (LLMPool.step s sub p op).2.handleInv := by
  cases op with
  | prepare config => exact handleInv_prepare h config
  | start id =>
    simp only [LLMPool.step, LLMPool.start]
    cases hpl : p.workers.lookup id with
    | none => exact h
    | some w =>
      dsimp only
      by_cases hr : w.running = true
      · simp only [if_pos hr]
        exact h
      · simp only [if_neg hr]
        cases hs : s w.config with
        | none => exact h
        | some cap => exact handleInv_updateWorker h id ⟨rfl, rfl, rfl, rfl⟩
  | stop id =>
    simp only [LLMPool.step, LLMPool.stop]
    cases hpl : p.workers.lookup id with
    | none => exact h
    | some w =>
      dsimp only
      by_cases hr : w.running = true
      · simp only [if_pos hr]
        exact handleInv_updateWorker h id ⟨rfl, rfl, rfl, rfl⟩
      · simp only [if_neg hr]
        exact h
  | stopAll => exact handleInv_stop_all h
  | isRunning id =>
    simp only [LLMPool.step, LLMPool.is_running]
    cases hpl : p.workers.lookup id with
    | none => exact h
    | some w => exact h
  | reset id config =>
    simp only [LLMPool.step, LLMPool.reset_llm]
    cases hpl : p.workers.lookup id with
    | none => exact h
    | some w =>
      have hmem := lookup_mem hpl
      exact handleInv_updateWorker h id (h (id, w) hmem)
  | gen id prompt =>
    simp only [LLMPool.step, LLMPool.generate]
    cases hpl : p.workers.lookup id with
    | none => exact h
    | some w =>
      dsimp only
      by_cases hr : w.running = true
      · simp only [if_pos hr]
        cases w.cap with
        | none => exact h
        | some cap => exact h
      · simp only [if_neg hr]
        exact h

theorem initial_handleInv (C : Type) : (LLMPool.initial C).handleInv := by
  intro e he
  simp [LLMPool.initial] at he

theorem run_handleInv {C : Type} (s : C → Option GenCap) (sub : Substrate)
    {p : LLMPool C} (h : p.handleInv) (ops : List (PoolOp C)) :
    (LLMPool.run s sub p ops).2.handleInv := by
  induction ops generalizing p with
  | nil => exact h
  | cons op ops ih =>
    simp only [LLMPool.run]
    exact ih (step_handleInv s sub h op)

/-!
Fresh-id lemmas for registration.
-/

theorem prepareMany_ids_ge {C : Type} (cs : List C) (p : LLMPool C) :
    ∀ i ∈ (p.prepareMany cs).1, p.nextUuid ≤ i := by
  induction cs generalizing p with
  | nil =>
    intro i hi
    simp [LLMPool.prepareMany] at hi
  | cons c cs ih =>
    intro i hi
    simp only [LLMPool.prepareMany, List.mem_cons] at hi
    cases hi with
    | inl hi =>
      rw [hi]
      exact Nat.le_refl _
    | inr hi =>
      have hge := ih (p.prepare_llm c).2 i hi
      exact Nat.le_of_succ_le hge

theorem prepareMany_nodup {C : Type} (cs : List C) (p : LLMPool C) :
    (p.prepareMany cs).1.Nodup := by
  induction cs generalizing p with
  | nil => simp [LLMPool.prepareMany]
  | cons c cs ih =>
    simp only [LLMPool.prepareMany]
    rw [List.nodup_cons]
    refine ⟨?_, ih _⟩
    intro hmem
    have hge := prepareMany_ids_ge cs (p.prepare_llm c).2 _ hmem
    exact Nat.not_succ_le_self _ hge

theorem prepareMany_fresh {C : Type} (cs : List C) {p : LLMPool C} (h : p.wf) :
    ((p.prepareMany cs).1).Disjoint (p.workers.map Prod.fst) := by
  intro a ha hmem
  have hge := prepareMany_ids_ge cs p a ha
  obtain ⟨e, he, hae⟩ := List.mem_map.mp hmem
  have hlt := h.1 e he
  rw [hae] at hlt
  exact Nat.not_lt.mpr hge hlt

theorem lookup_updateWorker {C : Type} (p : LLMPool C) (id : Nat) (v : Worker C) :
    (p.updateWorker id v).workers.lookup id = (p.workers.lookup id).map (fun _ => v) :=
  lookup_update p.workers id v

theorem generate_of_lookup_running {C : Type} {p : LLMPool C} {id : Nat} {w : Worker C}
    (h : p.workers.lookup id = some w) (hr : w.running = true) {cap : GenCap}
    (hc : w.cap = some cap) (prompt : String) :
    (p.generate id prompt).1 = .response (cap prompt) := by
  simp [LLMPool.generate, h, hr, hc]

/-!
The claims.
-/

/-- C1: the claim fails on the code of `test_spawner`.  With a worker
registered with the deterministic mapping `test_config_a` and successfully
started, `generate(id, "prompt_a")` evaluates to the TypeError error result
produced by `TestLM.generate` calling the configuration dict, not to the
mapping's value `"response_a"` asserted by the claim and by the test's own
assertion (`test_llm_pool.py` lines 82-83). -/
theorem C1_test_spawner_typeerror :
    ((LLMPool.start test_spawner Substrate.threaded
        ((LLMPool.initial TestConfig).prepare_llm test_config_a).2 0).2.generate
        0 "prompt_a").1
      = PoolOut.response (Except.error "TypeError: dict object is not callable") ∧
    ((LLMPool.start test_spawner Substrate.threaded
        ((LLMPool.initial TestConfig).prepare_llm test_config_a).2 0).2.generate
        0 "prompt_a").1
      ≠ PoolOut.response (Except.ok "response_a") := by
  constructor
  · rfl
  · decide

/-- C2: `generate(id, prompt)` on a pool fails with `UnknownWorker` when `id`
is absent from the registry and with `NotRunning` when `id` is registered
with `running = false`, and in both failure cases the returned pool state is
exactly the input state (no side effects). -/
theorem C2_generate_failures {C : Type} (p : LLMPool C) (id : Nat) (prompt : String) :
    (p.workers.lookup id = none →
      p.generate id prompt = (.err .UnknownWorker, p)) ∧
    (∀ w, p.workers.lookup id = some w → w.running = false →
      p.generate id prompt = (.err .NotRunning, p)) := by
  constructor
  · intro h
    simp [LLMPool.generate, h]
  · intro w h hr
    simp [LLMPool.generate, h, hr]

/-- Witness for C2: on the empty pool `generate 0` fails with
`UnknownWorker`; after registering `test_config_a` (worker 0 not yet
started) it fails with `NotRunning`; both leave the pool unchanged. -/
theorem C2_generate_failures_witness :
    (LLMPool.initial TestConfig).generate 0 "prompt_a"
      = (.err .UnknownWorker, LLMPool.initial TestConfig) ∧
    ((LLMPool.initial TestConfig).prepare_llm test_config_a).2.generate 0 "prompt_a"
      = (.err .NotRunning, ((LLMPool.initial TestConfig).prepare_llm test_config_a).2) := by
  constructor
  · exact (C2_generate_failures (LLMPool.initial TestConfig) 0 "prompt_a").1 rfl
  · exact (C2_generate_failures
      ((LLMPool.initial TestConfig).prepare_llm test_config_a).2 0 "prompt_a").2 _ rfl rfl

/-- C3: for every sequence of pool operations, the thread-isolated variant
and the process-isolated variant produce identical externally observable
outputs, and their final states agree on everything except the substrate
realizing the stop signal, the channels and the execution handle. -/
theorem C3_variants_identical {C : Type} (spawner : C → Option GenCap)
    (ops : List (PoolOp C)) :
    (ThreadedLLMPool.run spawner (LLMPool.initial C) ops).1
      = (MulitprocessingLLMPool.run spawner (LLMPool.initial C) ops).1 ∧
    (ThreadedLLMPool.run spawner (LLMPool.initial C) ops).2.core
      = (MulitprocessingLLMPool.run spawner (LLMPool.initial C) ops).2.core :=
  run_core spawner Substrate.threaded Substrate.multiproc rfl ops

/-- C4: `reset_llm(id, cfg)` fails with `UnknownWorker` exactly when `id` is
absent; otherwise it succeeds and replaces only the stored configuration —
the running flag, the generation instance and the handles are untouched, so
every `generate` result is unchanged — and after the next `start` of a
stopped worker the spawn capability is invoked on the new configuration, so
`generate` resolves against it. -/
theorem C4_reset_llm {C : Type} (s : C → Option GenCap) (sub : Substrate)
    (p : LLMPool C) (id : Nat) (cfg : C) :
    (p.workers.lookup id = none →
      p.reset_llm id cfg = (.err .UnknownWorker, p)) ∧
    (∀ w, p.workers.lookup id = some w →
      (p.reset_llm id cfg).1 = .ok ∧
      (p.reset_llm id cfg).2.workers.lookup id = some { w with config := cfg } ∧
      (∀ prompt, ((p.reset_llm id cfg).2.generate id prompt).1
        = (p.generate id prompt).1) ∧
      (∀ cap, w.running = false → s cfg = some cap → ∀ prompt,
        ((LLMPool.start s sub (p.reset_llm id cfg).2 id).2.generate id prompt).1
          = .response (cap prompt))) := by
  constructor
  · intro h
    simp [LLMPool.reset_llm, h]
  · intro w h
    have hupd : (p.reset_llm id cfg).2.workers.lookup id = some { w with config := cfg } := by
      simp only [LLMPool.reset_llm, h]
      rw [lookup_updateWorker, h]
      rfl
    refine ⟨by simp [LLMPool.reset_llm, h], hupd, ?_, ?_⟩
    · intro prompt
      simp only [LLMPool.generate, hupd, h]
      by_cases hr : w.running = true
      · rw [if_pos hr, if_pos hr]
        cases w.cap with
        | some cap => rfl
        | none => rfl
      · rw [if_neg hr, if_neg hr]
    · intro cap hrun hcap prompt
      have hstart : (LLMPool.start s sub (p.reset_llm id cfg).2 id)
          = (.ok, (p.reset_llm id cfg).2.updateWorker id
              { config := cfg, running := true, switch := some sub, input := some sub,
                output := some sub, executionHandle := some sub, cap := some cap }) := by
        simp only [LLMPool.start, hupd]
        rw [if_neg (by rw [show ({ w with config := cfg } : Worker C).running = w.running
              from rfl, hrun]; simp)]
        rw [hcap]
      rw [hstart]
      have hl2 := lookup_updateWorker (p.reset_llm id cfg).2 id
        { config := cfg, running := true, switch := some sub, input := some sub,
          output := some sub, executionHandle := some sub, cap := some cap }
      rw [hupd] at hl2
      exact generate_of_lookup_running hl2 rfl rfl prompt

/-- Witness for C4: on a pool with the registered (stopped) worker 0,
`reset_llm` to `test_config_new` succeeds, and after the next `start` the
worker answers `"new_prompt_d"` with `"new_response_d"` from the new
mapping. -/
theorem C4_reset_llm_witness :
    ((((LLMPool.initial TestConfig).prepare_llm test_config_a).2.reset_llm
        0 test_config_new).1 = .ok) ∧
    ((LLMPool.start mappingSpawner Substrate.threaded
        (((LLMPool.initial TestConfig).prepare_llm test_config_a).2.reset_llm
          0 test_config_new).2 0).2.generate 0 "new_prompt_d").1
      = .response (Except.ok "new_response_d") := by
  have h4 := C4_reset_llm mappingSpawner Substrate.threaded
    ((LLMPool.initial TestConfig).prepare_llm test_config_a).2 0 test_config_new
  have h2 := h4.2 sampleWorker rfl
  refine ⟨h2.1, ?_⟩
  have h5 := h2.2.2.2
    (fun prompt =>
      match test_config_new.lookup prompt with
      | some r => .ok r
      | none => .error "KeyError") rfl rfl "new_prompt_d"
  rw [h5]
  decide

/-- C5: in every reachable pool state, `is_running` is `false` for a freshly
registered worker, `true` directly after a successful `start`, `false`
directly after a successful `stop`; and `stop_all` reports no error (also
with zero running workers) and leaves `is_running = false` for every
registered worker. -/
theorem C5_lifecycle_flags {C : Type} (s : C → Option GenCap) (sub : Substrate)
    (ops : List (PoolOp C)) (cfg : C) (id : Nat) :
    ((((LLMPool.run s sub (LLMPool.initial C) ops).2.prepare_llm cfg).2.is_running
        ((LLMPool.run s sub (LLMPool.initial C) ops).2.prepare_llm cfg).1).1
      = .flag false) ∧
    (∀ p2, LLMPool.start s sub (LLMPool.run s sub (LLMPool.initial C) ops).2 id
        = (.ok, p2) → (p2.is_running id).1 = .flag true) ∧
    (∀ p2, (LLMPool.run s sub (LLMPool.initial C) ops).2.stop id = (.ok, p2) →
      (p2.is_running id).1 = .flag false) ∧
    (((LLMPool.run s sub (LLMPool.initial C) ops).2.stop_all).1 = .ok ∧
     ∀ w, (LLMPool.run s sub (LLMPool.initial C) ops).2.workers.lookup id = some w →
       (((LLMPool.run s sub (LLMPool.initial C) ops).2.stop_all).2.is_running id).1
         = .flag false) := by
  have hwf := run_wf s sub (initial_wf C) ops
  refine ⟨?_, ?_, ?_, rfl, ?_⟩
  · have hfresh : (((LLMPool.run s sub (LLMPool.initial C) ops).2.prepare_llm
        cfg).2.workers).lookup (LLMPool.run s sub (LLMPool.initial C) ops).2.nextUuid
        = some { config := cfg, running := false, switch := none, input := none,
                 output := none, executionHandle := none, cap := none } := by
      simp only [LLMPool.prepare_llm]
      refine lookup_append_fresh _ ?_
      intro e he
      exact Nat.ne_of_lt (hwf.1 e he)
    simp [LLMPool.is_running, LLMPool.prepare_llm] at hfresh ⊢
    rw [hfresh]
  · intro p2 h
    simp only [LLMPool.start] at h
    cases hpl : (LLMPool.run s sub (LLMPool.initial C) ops).2.workers.lookup id with
    | none =>
      rw [hpl] at h
      simp at h
    | some w =>
      rw [hpl] at h
      dsimp only at h
      by_cases hr : w.running = true
      · rw [if_pos hr] at h
        rw [Prod.mk.injEq] at h
        obtain ⟨-, h2⟩ := h
        rw [← h2]
        simp [LLMPool.is_running, hpl, hr]
      · rw [if_neg hr] at h
        cases hs : s w.config with
        | none =>
          rw [hs] at h
          simp at h
        | some cap =>
          rw [hs] at h
          dsimp only at h
          rw [Prod.mk.injEq] at h
          obtain ⟨-, h2⟩ := h
          rw [← h2]
          simp only [LLMPool.is_running, lookup_updateWorker, hpl, Option.map]
  · intro p2 h
    simp only [LLMPool.stop] at h
    cases hpl : (LLMPool.run s sub (LLMPool.initial C) ops).2.workers.lookup id with
    | none =>
      rw [hpl] at h
      simp at h
    | some w =>
      rw [hpl] at h
      dsimp only at h
      by_cases hr : w.running = true
      · rw [if_pos hr] at h
        rw [Prod.mk.injEq] at h
        obtain ⟨-, h2⟩ := h
        rw [← h2]
        simp only [LLMPool.is_running, lookup_updateWorker, hpl, Option.map]
      · rw [if_neg hr] at h
        rw [Prod.mk.injEq] at h
        obtain ⟨-, h2⟩ := h
        rw [← h2]
        simp only [LLMPool.is_running, hpl]
        rw [show w.running = false from by simpa using hr]
  · intro w hw
    simp only [LLMPool.is_running, LLMPool.stop_all, lookup_map_snd, hw, Option.map]
    have : (w.stopped).running = false := by
      by_cases hr : w.running = true
      · simp [Worker.stopped, hr]
      · simp [Worker.stopped, hr]
    rw [this]

/-- Witness for C5 on a pool obtained by registering `test_config_a`
(worker 0): a second registration starts out not running; starting worker 0
makes `is_running` true; stopping it (a no-op here, it is not running)
leaves it false; `stop_all` succeeds and leaves worker 0 not running. -/
theorem C5_lifecycle_flags_witness :
    ((((LLMPool.run mappingSpawner Substrate.threaded (LLMPool.initial TestConfig)
          [PoolOp.prepare test_config_a]).2.prepare_llm test_config_b).2.is_running
        ((LLMPool.run mappingSpawner Substrate.threaded (LLMPool.initial TestConfig)
          [PoolOp.prepare test_config_a]).2.prepare_llm test_config_b).1).1
      = .flag false) ∧
    (((LLMPool.start mappingSpawner Substrate.threaded
        (LLMPool.run mappingSpawner Substrate.threaded (LLMPool.initial TestConfig)
          [PoolOp.prepare test_config_a]).2 0).2.is_running 0).1 = .flag true) ∧
    ((((LLMPool.run mappingSpawner Substrate.threaded (LLMPool.initial TestConfig)
          [PoolOp.prepare test_config_a]).2.stop 0).2.is_running 0).1 = .flag false) ∧
    (((LLMPool.run mappingSpawner Substrate.threaded (LLMPool.initial TestConfig)
          [PoolOp.prepare test_config_a]).2.stop_all).1 = .ok) ∧
    ((((LLMPool.run mappingSpawner Substrate.threaded (LLMPool.initial TestConfig)
          [PoolOp.prepare test_config_a]).2.stop_all).2.is_running 0).1 = .flag false) := by
  have h := C5_lifecycle_flags mappingSpawner Substrate.threaded
    [PoolOp.prepare test_config_a] test_config_b 0
  exact ⟨h.1, h.2.1 _ rfl, h.2.2.1 _ rfl, h.2.2.2.1, h.2.2.2.2 sampleWorker rfl⟩

/-- C6: in every reachable pool state the registered worker ids are pairwise
distinct, registering any further list of configurations yields pairwise
distinct fresh ids, and none of the fresh ids reuses an id already in the
registry (stopped workers stay registered, so stopped ids are never reused
either). -/
theorem C6_ids_unique {C : Type} (s : C → Option GenCap) (sub : Substrate)
    (ops : List (PoolOp C)) (configs : List C) :
    ((LLMPool.run s sub (LLMPool.initial C) ops).2.workers.map Prod.fst).Nodup ∧
    ((LLMPool.run s sub (LLMPool.initial C) ops).2.prepareMany configs).1.Nodup ∧
    ((LLMPool.run s sub (LLMPool.initial C) ops).2.prepareMany configs).1.Disjoint
      ((LLMPool.run s sub (LLMPool.initial C) ops).2.workers.map Prod.fst) := by
  have hwf := run_wf s sub (initial_wf C) ops
  exact ⟨hwf.2, prepareMany_nodup configs _, prepareMany_fresh configs hwf⟩

/-- Witness for C6 on a pool with one registered worker and two further
registrations. -/
theorem C6_ids_unique_witness :
    ((LLMPool.run mappingSpawner Substrate.threaded (LLMPool.initial TestConfig)
        [PoolOp.prepare test_config_a]).2.workers.map Prod.fst).Nodup ∧
    ((LLMPool.run mappingSpawner Substrate.threaded (LLMPool.initial TestConfig)
        [PoolOp.prepare test_config_a]).2.prepareMany
        [test_config_b, test_config_new]).1.Nodup ∧
    ((LLMPool.run mappingSpawner Substrate.threaded (LLMPool.initial TestConfig)
        [PoolOp.prepare test_config_a]).2.prepareMany
        [test_config_b, test_config_new]).1.Disjoint
      ((LLMPool.run mappingSpawner Substrate.threaded (LLMPool.initial TestConfig)
        [PoolOp.prepare test_config_a]).2.workers.map Prod.fst) :=
  C6_ids_unique mappingSpawner Substrate.threaded [PoolOp.prepare test_config_a]
    [test_config_b, test_config_new]

/-- C7: in every reachable pool state, each of a worker's four handles (stop
signal `switch`, `input` channel, `output` channel, execution handle) is
live exactly when the worker's running flag is true; in particular a stopped
worker holds no live handles. -/
theorem C7_handles_iff_running {C : Type} (s : C → Option GenCap) (sub : Substrate)
    (ops : List (PoolOp C)) (id : Nat) (w : Worker C)
    (h : (LLMPool.run s sub (LLMPool.initial C) ops).2.workers.lookup id = some w) :
    w.switch.isSome = w.running ∧ w.input.isSome = w.running ∧
    w.output.isSome = w.running ∧ w.executionHandle.isSome = w.running := by
  have hinv := run_handleInv s sub (initial_handleInv C) ops
  exact hinv (id, w) (lookup_mem h)

/-- Witness for C7 at the freshly registered worker 0, which is not running
and holds no handles. -/
theorem C7_handles_iff_running_witness :
    sampleWorker.switch.isSome = sampleWorker.running ∧
    sampleWorker.input.isSome = sampleWorker.running ∧
    sampleWorker.output.isSome = sampleWorker.running ∧
    sampleWorker.executionHandle.isSome = sampleWorker.running :=
  C7_handles_iff_running mappingSpawner Substrate.threaded
    [PoolOp.prepare test_config_a] 0 sampleWorker rfl

/-- C8: when the `(backendKind, loaderKind)` pair read from `config["type"]`
and `config["loader"]` (defaulting to `"_default"`) has no registered loader
in `SUPPORTED_TYPES`, `spawn_language_model_instance` returns `None` instead
of raising. -/
theorem C8_spawn_unregistered (config : LMConfig)
    (h : ((dictGet SUPPORTED_TYPES config.type
            { loaders := [], gateways := [] }).loaders.lookup
            (config.loader.getD "_default")).getD none = none) :
    spawn_language_model_instance config = none := by
  simp only [spawn_language_model_instance, h]
  rfl

/-- Witness for C8: a config of type `"openai"` selects the registered
`None` loader, so spawning yields `None`. -/
theorem C8_spawn_unregistered_witness :
    spawn_language_model_instance { type := some "openai", loader := none } = none :=
  C8_spawn_unregistered { type := some "openai", loader := none } rfl

theorem spawn_none_of_default_none (config : LMConfig) {ty : String}
    (hty : config.type = some ty)
    (hlk : SUPPORTED_TYPES.lookup ty
      = some { loaders := [("_default", (none : Option LoaderClass))], gateways := [] }) :
    spawn_language_model_instance config = none := by
  have hentry : dictGet SUPPORTED_TYPES config.type { loaders := [], gateways := [] }
      = { loaders := [("_default", (none : Option LoaderClass))], gateways := [] } := by
    simp only [dictGet, hty, hlk, Option.getD]
  simp only [spawn_language_model_instance, hentry, List.lookup]
  cases hb : (config.loader.getD "_default") == "_default" with
  | true => rfl
  | false => rfl


/-- C9: a spawned instance exists only for backend `"llamacpp"` (loader
`"_default"`, class `LlamaCppLM`) or `"huggingface"` (loader `"_default"`
giving `LocalHFLM`, loader `"embedding"` giving `LocalHFEmbeddingLM`); for a
configuration of any other backend kind the function returns `None`, since
every other entry of `SUPPORTED_TYPES` registers `None` as its `"_default"`
loader. -/
theorem C9_spawn_backend_classes (config : LMConfig) :
    (∀ inst, spawn_language_model_instance config = some inst →
      (config.type = some "llamacpp" ∧ config.loader.getD "_default" = "_default" ∧
        inst.cls = .LlamaCppLM) ∨
      (config.type = some "huggingface" ∧
        ((config.loader.getD "_default" = "_default" ∧ inst.cls = .LocalHFLM) ∨
         (config.loader.getD "_default" = "embedding" ∧
           inst.cls = .LocalHFEmbeddingLM)))) ∧
    ((config.type ≠ some "llamacpp" ∧ config.type ≠ some "huggingface") →
      spawn_language_model_instance config = none) := by
  cases hty : config.type with
  | none =>
    have hs : spawn_language_model_instance config = none := by
      simp [spawn_language_model_instance, dictGet, hty, List.lookup]
    refine ⟨?_, fun _ => hs⟩
    intro inst h
    rw [hs] at h
    cases h
  | some ty =>
    cases hlk : SUPPORTED_TYPES.lookup ty with
    | none =>
      have hentry : dictGet SUPPORTED_TYPES config.type { loaders := [], gateways := [] }
          = { loaders := [], gateways := [] } := by
        simp only [dictGet, hty, hlk, Option.getD]
      have hs : spawn_language_model_instance config = none := by
        simp [spawn_language_model_instance, hentry, List.lookup]
      refine ⟨?_, fun _ => hs⟩
      intro inst h
      rw [hs] at h
      cases h
    | some entry =>
      have hmem := lookup_mem hlk
      simp only [SUPPORTED_TYPES, List.mem_cons, Prod.mk.injEq] at hmem
      rcases hmem with hc|hc|hc|hc|hc|hc|hc|hc|hc|hc|hc|hc|hc|hc|hnil
      · obtain ⟨rfl, rfl⟩ := hc
        have hentry : dictGet SUPPORTED_TYPES config.type { loaders := [], gateways := [] }
            = { loaders := [("_default", some LoaderClass.LlamaCppLM)], gateways := [] } := by
          simp only [dictGet, hty, hlk, Option.getD]
        constructor
        · intro inst h
          left
          refine ⟨rfl, ?_⟩
          by_cases hk : config.loader.getD "_default" = "_default"
          · have hb : (config.loader.getD "_default" == "_default") = true :=
              beq_iff_eq.mpr hk
            have hs : spawn_language_model_instance config
                = some { cls := .LlamaCppLM, config := config } := by
              simp [spawn_language_model_instance, hentry, List.lookup, hb]
            rw [hs] at h
            have h2 := Option.some.inj h
            exact ⟨hk, by rw [← h2]⟩
          · have hb : (config.loader.getD "_default" == "_default") = false :=
              beq_eq_false_iff_ne.mpr hk
            have hs : spawn_language_model_instance config = none := by
              simp [spawn_language_model_instance, hentry, List.lookup, hb]
            rw [hs] at h
            cases h
        · intro hne
          exact absurd rfl hne.1
      · obtain ⟨rfl, rfl⟩ := hc
        refine ⟨?_, fun _ => spawn_none_of_default_none config hty hlk⟩
        intro inst h
        rw [spawn_none_of_default_none config hty hlk] at h
        cases h
      · obtain ⟨rfl, rfl⟩ := hc
        refine ⟨?_, fun _ => spawn_none_of_default_none config hty hlk⟩
        intro inst h
        rw [spawn_none_of_default_none config hty hlk] at h
        cases h
      · obtain ⟨rfl, rfl⟩ := hc
        refine ⟨?_, fun _ => spawn_none_of_default_none config hty hlk⟩
        intro inst h
        rw [spawn_none_of_default_none config hty hlk] at h
        cases h
      · obtain ⟨rfl, rfl⟩ := hc
        refine ⟨?_, fun _ => spawn_none_of_default_none config hty hlk⟩
        intro inst h
        rw [spawn_none_of_default_none config hty hlk] at h
        cases h
      · obtain ⟨rfl, rfl⟩ := hc
        refine ⟨?_, fun _ => spawn_none_of_default_none config hty hlk⟩
        intro inst h
        rw [spawn_none_of_default_none config hty hlk] at h
        cases h
      · obtain ⟨rfl, rfl⟩ := hc
        have hentry : dictGet SUPPORTED_TYPES config.type { loaders := [], gateways := [] }
            = { loaders := [("_default", some LoaderClass.LocalHFLM),
                            ("embedding", some LoaderClass.LocalHFEmbeddingLM)],
                gateways := [] } := by
          simp only [dictGet, hty, hlk, Option.getD]
        constructor
        · intro inst h
          right
          refine ⟨rfl, ?_⟩
          by_cases hk1 : config.loader.getD "_default" = "_default"
          · have hb1 : (config.loader.getD "_default" == "_default") = true :=
              beq_iff_eq.mpr hk1
            have hs : spawn_language_model_instance config
                = some { cls := .LocalHFLM, config := config } := by
              simp [spawn_language_model_instance, hentry, List.lookup, hb1]
            rw [hs] at h
            have h2 := Option.some.inj h
            exact Or.inl ⟨hk1, by rw [← h2]⟩
          · have hb1 : (config.loader.getD "_default" == "_default") = false :=
              beq_eq_false_iff_ne.mpr hk1
            by_cases hk2 : config.loader.getD "_default" = "embedding"
            · have hb2 : (config.loader.getD "_default" == "embedding") = true :=
                beq_iff_eq.mpr hk2
              have hs : spawn_language_model_instance config
                  = some { cls := .LocalHFEmbeddingLM, config := config } := by
                simp [spawn_language_model_instance, hentry, List.lookup, hb1, hb2]
              rw [hs] at h
              have h2 := Option.some.inj h
              exact Or.inr ⟨hk2, by rw [← h2]⟩
            · have hb2 : (config.loader.getD "_default" == "embedding") = false :=
                beq_eq_false_iff_ne.mpr hk2
              have hs : spawn_language_model_instance config = none := by
                simp [spawn_language_model_instance, hentry, List.lookup, hb1, hb2]
              rw [hs] at h
              cases h
        · intro hne
          exact absurd rfl hne.2
      · obtain ⟨rfl, rfl⟩ := hc
        refine ⟨?_, fun _ => spawn_none_of_default_none config hty hlk⟩
        intro inst h
        rw [spawn_none_of_default_none config hty hlk] at h
        cases h
      · obtain ⟨rfl, rfl⟩ := hc
        refine ⟨?_, fun _ => spawn_none_of_default_none config hty hlk⟩
        intro inst h
        rw [spawn_none_of_default_none config hty hlk] at h
        cases h
      · obtain ⟨rfl, rfl⟩ := hc
        refine ⟨?_, fun _ => spawn_none_of_default_none config hty hlk⟩
        intro inst h
        rw [spawn_none_of_default_none config hty hlk] at h
        cases h
      · obtain ⟨rfl, rfl⟩ := hc
        refine ⟨?_, fun _ => spawn_none_of_default_none config hty hlk⟩
        intro inst h
        rw [spawn_none_of_default_none config hty hlk] at h
        cases h
      · obtain ⟨rfl, rfl⟩ := hc
        refine ⟨?_, fun _ => spawn_none_of_default_none config hty hlk⟩
        intro inst h
        rw [spawn_none_of_default_none config hty hlk] at h
        cases h
      · obtain ⟨rfl, rfl⟩ := hc
        refine ⟨?_, fun _ => spawn_none_of_default_none config hty hlk⟩
        intro inst h
        rw [spawn_none_of_default_none config hty hlk] at h
        cases h
      · obtain ⟨rfl, rfl⟩ := hc
        refine ⟨?_, fun _ => spawn_none_of_default_none config hty hlk⟩
        intro inst h
        rw [spawn_none_of_default_none config hty hlk] at h
        cases h
      · exact absurd hnil (List.not_mem_nil _)

/-- Witness for C9: spawning with type `"llamacpp"` and no loader key yields
the `LlamaCppLM` instance (first disjunct), and a config of type `"openai"`
yields `None`. -/
theorem C9_spawn_backend_classes_witness :
    ((({ type := some "llamacpp", loader := none } : LMConfig).type = some "llamacpp" ∧
      ({ type := some "llamacpp", loader := none } : LMConfig).loader.getD "_default"
        = "_default" ∧
      ({ cls := LoaderClass.LlamaCppLM,
         config := { type := some "llamacpp", loader := none } } : LMInstance).cls
        = .LlamaCppLM) ∨
     (({ type := some "llamacpp", loader := none } : LMConfig).type = some "huggingface" ∧
      ((({ type := some "llamacpp", loader := none } : LMConfig).loader.getD "_default"
          = "_default" ∧
        ({ cls := LoaderClass.LlamaCppLM,
           config := { type := some "llamacpp", loader := none } } : LMInstance).cls
          = .LocalHFLM) ∨
       (({ type := some "llamacpp", loader := none } : LMConfig).loader.getD "_default"
          = "embedding" ∧
        ({ cls := LoaderClass.LlamaCppLM,
           config := { type := some "llamacpp", loader := none } } : LMInstance).cls
          = .LocalHFEmbeddingLM)))) ∧
    spawn_language_model_instance { type := some "openai", loader := none } = none := by
  constructor
  · exact (C9_spawn_backend_classes { type := some "llamacpp", loader := none }).1
      { cls := .LlamaCppLM, config := { type := some "llamacpp", loader := none } } rfl
  · exact (C9_spawn_backend_classes { type := some "openai", loader := none }).2
      ⟨by decide, by decide⟩

theorem lookup_setKey (es : List (String × PyVal)) (k : String) (v : PyVal) :
    (setKey es k v).lookup k = some v := by
  induction es with
  | nil => simp [setKey, List.lookup]
  | cons e es ih =>
    obtain ⟨k0, v0⟩ := e
    by_cases hk : k0 = k
    · subst hk
      simp [setKey, List.lookup]
    · have hb : (k == k0) = false := beq_eq_false_iff_ne.mpr (Ne.symm hk)
      simp [setKey, hk, List.lookup, hb, ih]

/-- C10: the wrapper produced by `interface_function` always returns a dict
carrying a boolean `success` key; a raised exception or a return value that
rejects item assignment is converted into the failure dict with the
exception string and the traceback (never propagated); a successful dict
return is passed through with `success = True`; and a log entry for the
interaction is appended in every case. -/
theorem C10_interface_function (fn ar kr : String) (res : Except PyExn PyVal)
    (log : List LogEntry) :
    (∃ es b, (interface_function_inner fn ar kr res log).1 = .vDict es ∧
      es.lookup "success" = some (.vBool b)) ∧
    (∀ ex, res = .error ex →
      (interface_function_inner fn ar kr res log).1 = failureDict ex) ∧
    (∀ v, res = .ok v → (∀ es, v ≠ .vDict es) →
      (interface_function_inner fn ar kr res log).1
        = failureDict { msg := "TypeError: object does not support item assignment",
                        trace := "Traceback: TypeError" }) ∧
    (∀ es, res = .ok (.vDict es) →
      (interface_function_inner fn ar kr res log).1
        = .vDict (setKey es "success" (.vBool true))) ∧
    (∃ entry, (interface_function_inner fn ar kr res log).2 = log ++ [entry]) := by
  refine ⟨?_, ?_, ?_, ?_, ⟨_, rfl⟩⟩
  · cases res with
    | error ex => exact ⟨_, false, rfl, rfl⟩
    | ok v =>
      cases v with
      | vDict es =>
        exact ⟨setKey es "success" (.vBool true), true, rfl,
          lookup_setKey es "success" (.vBool true)⟩
      | vBool b => exact ⟨_, false, rfl, rfl⟩
      | vStr s => exact ⟨_, false, rfl, rfl⟩
      | vNone => exact ⟨_, false, rfl, rfl⟩
  · intro ex h
    subst h
    rfl
  · intro v h hnd
    subst h
    cases v with
    | vDict es => exact absurd rfl (hnd es)
    | vBool b => rfl
    | vStr s => rfl
    | vNone => rfl
  · intro es h
    subst h
    rfl

/-- Witness for C10: a raised exception, a dict return and a non-assignable
return, each at concrete inputs. -/
theorem C10_interface_function_witness :
    (interface_function_inner "f" "args" "kwargs"
        (.error { msg := "boom", trace := "tb" }) []).1
      = failureDict { msg := "boom", trace := "tb" } ∧
    (interface_function_inner "f" "args" "kwargs" (.ok (.vDict [])) []).1
      = .vDict (setKey [] "success" (.vBool true)) ∧
    (interface_function_inner "f" "args" "kwargs" (.ok .vNone) []).1
      = failureDict { msg := "TypeError: object does not support item assignment",
                      trace := "Traceback: TypeError" } := by
  refine ⟨?_, ?_, ?_⟩
  · exact (C10_interface_function "f" "args" "kwargs"
      (.error { msg := "boom", trace := "tb" }) []).2.1 _ rfl
  · exact (C10_interface_function "f" "args" "kwargs" (.ok (.vDict [])) []).2.2.2.1 [] rfl
  · exact (C10_interface_function "f" "args" "kwargs" (.ok .vNone) []).2.2.1 .vNone rfl
      (fun es h => PyVal.noConfusion h)
